import Mathlib

/-!
Shallow embedding of the upload-to-playback core of the Unlimited-Storage
video platform (Node.js/Express), together with proofs checking the
natural-language specification against the code.

Byte contents are modelled as `List Nat`, file sizes as `Nat`, and the
fallible external collaborators (Telegram API calls, ffmpeg invocations,
filesystem probes) as explicit oracle functions passed to the embedded
operations.  Each definition is translated from the corresponding source
function; the source location is given in its doc comment.
-/

namespace Unlimited

/-! ## Chunked object store adapter (services/telegramService.js) -/

/-- Telegram single-object size ceiling, `this.maxFileSize = 50 * 1024 * 1024`
(telegramService.js line 22). -/
def telegramMaxFileSize : Nat := 50 * 1024 * 1024

/-- Chunk size used by the chunked upload path,
`const chunkSize = 45 * 1024 * 1024` (telegramService.js lines 125 and 349). -/
def telegramChunkSize : Nat := 45 * 1024 * 1024

/-- Retry ceiling `this.maxRetries = 3` (telegramService.js line 23). -/
def maxRetries : Nat := 3

/-- Base retry delay `this.retryDelay = 5000` ms (telegramService.js line 24). -/
def retryDelay : Nat := 5000

/-- The two upload paths of `uploadVideo` / `uploadToChannel`. -/
inductive UploadMethod
  | single
  | chunked
  deriving DecidableEq, Repr

/-- Dispatch between the single and the chunked upload path:
`if (fileSize > this.maxFileSize) { ... chunked ... } else { ... single ... }`
(telegramService.js lines 47-53, and identically lines 310-314 in
`uploadToChannel`). -/
def chooseUploadMethod (fileSize maxFileSize : Nat) : UploadMethod :=
  if fileSize > maxFileSize then .chunked else .single

/-- `splitVideoFile(videoPath, chunkSize)` (telegramService.js lines 168-194):
`numChunks = Math.ceil(fileSize / chunkSize)`; chunk `i` is the byte slice
`[i*chunkSize, min(i*chunkSize + chunkSize, fileSize))` of the file
(`createReadStream(videoPath, { start, end: end - 1 })` reads an inclusive
range). -/
def splitVideoFile (file : List Nat) (chunkSize : Nat) : List (List Nat) :=
  let fileSize := file.length
  let numChunks := (fileSize + chunkSize - 1) / chunkSize
  (List.range numChunks).map (fun i =>
    let start := i * chunkSize
    let stop := min (start + chunkSize) fileSize
    (file.drop start).take (stop - start))

/-- One uploaded chunk record as built by `uploadLargeVideoToChannel`
(telegramService.js lines 370-376): the 1-based sequence number
(`part: i + 1`) together with the chunk's bytes (held by Telegram under the
stored `fileId`). -/
structure ChunkRecord where
  part : Nat
  data : List Nat
  deriving DecidableEq, Repr

/-- The chunk list assembled by `uploadLargeVideoToChannel`
(telegramService.js lines 347-390): chunks of `splitVideoFile` are uploaded
in order and pushed with `part: i + 1`. -/
def uploadLargeVideoToChannel (file : List Nat) (chunkSize : Nat) : List ChunkRecord :=
  ((splitVideoFile file chunkSize).enum).map (fun p => ⟨p.1 + 1, p.2⟩)

/-- `downloadChunkedVideo` (telegramService.js lines 220-244): iterates the
stored chunk list in order and appends every chunk's byte stream to the
destination file. -/
def downloadChunkedVideo (chunks : List ChunkRecord) : List Nat :=
  (chunks.map ChunkRecord.data).flatten

/-! ## Retrying primary uploads (telegramService.js lines 27-89, 280-292) -/

/-- Result record of a primary upload: `{ uploaded: true, ... }` or
`{ uploaded: false, error/reason }` (telegramService.js lines 81-88). -/
inductive UploadOutcome (α : Type)
  | uploaded (a : α)
  | notUploaded (reason : String)
  deriving DecidableEq, Repr

/-- Trace of one `uploadWithRetry` run: the final result, the number of
attempts actually made, and the sleeps performed between attempts. -/
structure RetryRun (α : Type) where
  result : Except String α
  attemptsMade : Nat
  sleeps : List Nat

/-- The loop body of `uploadWithRetry` (telegramService.js lines 280-292):
`for (attempt = 1; attempt <= maxRetries; attempt++)`, rethrowing on the last
attempt and otherwise sleeping `retryDelay * attempt` before the next one.
`f n` is the outcome of the n-th attempt; `remaining` counts the attempts the
loop may still make. -/
def retryLoop (f : Nat → Except String α) (delay : Nat) : Nat → Nat → RetryRun α
  | _, 0 => ⟨.error "retry loop made no attempt", 0, []⟩
  | attempt, remaining + 1 =>
    match f attempt with
    | .ok a => ⟨.ok a, 1, []⟩
    | .error e =>
      if remaining = 0 then ⟨.error e, 1, []⟩
      else
        let rest := retryLoop f delay (attempt + 1) remaining
        ⟨rest.result, rest.attemptsMade + 1, delay * attempt :: rest.sleeps⟩

/-- `uploadWithRetry(uploadFunction, maxRetries = this.maxRetries)`
(telegramService.js lines 280-292), started at attempt number 1. -/
def uploadWithRetry (f : Nat → Except String α) (delay retries : Nat) : RetryRun α :=
  retryLoop f delay 1 retries

/-- `uploadVideo`'s outer try/catch (telegramService.js lines 39-88): a
throw escaping the retried upload is caught and converted into
`{ uploaded: false, error: error.message }`. -/
def uploadVideoOutcome (f : Nat → Except String α) : UploadOutcome α :=
  match (uploadWithRetry f retryDelay maxRetries).result with
  | .ok a => .uploaded a
  | .error e => .notUploaded e

/-! ## Quality ladder (services/videoProcessor.js lines 471-485) -/

/-- One entry of the candidate quality ladder. -/
structure QualityLevel where
  name : String
  width : Nat
  height : Nat
  videoBitrate : String
  audioBitrate : String
  deriving DecidableEq, Repr

/-- The fixed candidate ladder `levels` (videoProcessor.js lines 476-481). -/
def qualityLadder : List QualityLevel :=
  [ ⟨"1080p", 1920, 1080, "5000k", "192k"⟩,
    ⟨"720p", 1280, 720, "2800k", "128k"⟩,
    ⟨"480p", 854, 480, "1400k", "128k"⟩,
    ⟨"360p", 640, 360, "800k", "96k"⟩ ]

/-- `getQualityLevels(metadata)` (videoProcessor.js lines 471-485):
`originalHeight = metadata.video?.height || 720` (a missing or zero height
falls back to 720 through JavaScript truthiness), then
`levels.filter(q => q.height <= originalHeight)`. -/
def getQualityLevels (videoHeight : Option Nat) : List QualityLevel :=
  let originalHeight :=
    match videoHeight with
    | none => 720
    | some h => if h = 0 then 720 else h
  qualityLadder.filter (fun q => q.height ≤ originalHeight)

/-! ## Audio track extraction (services/audioExtractor.js lines 24-108) -/

/-- The per-track metadata consumed by `extractAudioTracks`
(fields read on lines 44, 49, 64-75 of audioExtractor.js). -/
structure AudioTrackMeta where
  index : Nat
  language : Option String
  title : Option String
  channels : Nat
  sampleRate : Nat
  deriving DecidableEq, Repr

/-- One element of the result list of `extractAudioTracks`
(audioExtractor.js lines 64-76); only core-relevant fields are kept. -/
structure ExtractedAudioInfo where
  trackIndex : Nat
  fileSize : Nat
  language : String
  title : String
  deriving DecidableEq, Repr

/-- The per-track loop of `extractAudioTracks` (audioExtractor.js lines
42-95) over the enumerated track list.  `extract ti t` models
`extractSingleAudioTrack` followed by `fs.stat`: it yields the extracted
file's size, or an error.  A failed track, and a track whose output file is
empty (`stats.size === 0` throws on line 60-62), is skipped without aborting
the batch; the second component records every track index for which an
extraction was attempted. -/
def extractLoop (extract : Nat → AudioTrackMeta → Except String Nat) :
    List (Nat × AudioTrackMeta) → List ExtractedAudioInfo × List Nat
  | [] => ([], [])
  | (i, t) :: rest =>
    let ti := if t.index = 0 then i else t.index
    let restRun := extractLoop extract rest
    match extract ti t with
    | .ok size =>
      if size = 0 then (restRun.1, ti :: restRun.2)
      else
        (⟨ti, size, t.language.getD "unknown",
          t.title.getD ("Audio Track " ++ toString (i + 1))⟩ :: restRun.1,
         ti :: restRun.2)
    | .error _ => (restRun.1, ti :: restRun.2)

/-- `extractAudioTracks(videoPath, videoId, audioTracks, progressCallback)`
(audioExtractor.js lines 24-108): `if (!audioTracks || audioTracks.length <= 1)
return []` (lines 25-28, before any filesystem or ffmpeg work), else the
per-track extraction loop.  `none` models a missing `audioTracks` argument. -/
def extractAudioTracks (extract : Nat → AudioTrackMeta → Except String Nat)
    (audioTracks : Option (List AudioTrackMeta)) :
    List ExtractedAudioInfo × List Nat :=
  match audioTracks with
  | none => ([], [])
  | some l =>
    if l.length ≤ 1 then ([], [])
    else extractLoop extract l.enum

/-! ## Range streaming (server.js `/api/stream/:id`, lines 779-819)

JavaScript strings are modelled as `List Char`; the handler's string
operations (`replace(/bytes=/, "")`, `split("-")`, `parseInt(s, 10)`) are
embedded below as executable functions on character lists. -/

/-- First-occurrence replacement, modelling `range.replace(/bytes=/, "")`
(server.js line 798). -/
def replaceFirst (pat rep : List Char) : List Char → List Char
  | [] => []
  | c :: rest =>
    if (c :: rest).take pat.length = pat then rep ++ (c :: rest).drop pat.length
    else c :: replaceFirst pat rep rest

/-- JavaScript `String.prototype.split` with a single-character separator;
empty pieces are kept, as in JS. -/
def splitOnChar (sep : Char) : List Char → List (List Char)
  | [] => [[]]
  | c :: rest =>
    match splitOnChar sep rest with
    | [] => [[]]
    | h :: t => if c = sep then [] :: h :: t else (c :: h) :: t

/-- Leading decimal digits of a character list. -/
def leadingDigits (s : List Char) : List Char :=
  s.takeWhile (fun c => decide ('0' ≤ c) && decide (c ≤ '9'))

/-- Numeric value of a digit list. -/
def digitsToNat (ds : List Char) : Nat :=
  ds.foldl (fun acc c => acc * 10 + (c.toNat - '0'.toNat)) 0

/-- `parseInt(s, 10)`: the value of the leading digit run, `none` (NaN) when
there is none.  (The handler never passes signed or whitespace-padded
strings.) -/
def parseIntJS (s : List Char) : Option Nat :=
  if leadingDigits s = [] then none else some (digitsToNat (leadingDigits s))

/-- `range.replace(/bytes=/, "").split("-")` (server.js line 798). -/
def rangeParts (range : List Char) : List (List Char) :=
  splitOnChar '-' (replaceFirst "bytes=".data [] range)

/-- `start = parseInt(parts[0], 10)` (server.js line 799); `none` is NaN. -/
def rangeStart (range : List Char) : Option Nat :=
  (rangeParts range).head?.bind parseIntJS

/-- `end = parts[1] ? parseInt(parts[1], 10) : streamData.contentLength - 1`
(server.js line 800): a missing or empty (falsy) second part means
`contentLength - 1`; a non-numeric one is NaN (`none`). -/
def rangeEndValue (range : List Char) (contentLength : Nat) : Option Int :=
  match (rangeParts range)[1]? with
  | some p =>
    if p = [] then some ((contentLength : Int) - 1)
    else (parseIntJS p).map (fun n => (n : Int))
  | none => some ((contentLength : Int) - 1)

/-- The status code and the range-related headers set by the stream handler. -/
structure RangeResp where
  status : Nat
  contentRange : Option (Nat × Int × Nat)
  contentLength : Option Int
  deriving DecidableEq, Repr

/-- The range handling of `/api/stream/:id` (server.js lines 796-809):
`if (range && streamData.acceptsRanges)` set status 206,
`Content-Range: bytes start-end/total` and
`Content-Length: end - start + 1`; `else if (!range)` set
`Content-Length: contentLength` with the default 200 status.  A NaN start or
end (impossible for well-formed `bytes=start-end` headers) is modelled as
`none` header values. -/
def streamRangeResponse (range : Option (List Char)) (acceptsRanges : Bool)
    (contentLength : Nat) : RangeResp :=
  match range with
  | some r =>
    if acceptsRanges then
      match rangeStart r, rangeEndValue r contentLength with
      | some st, some en => ⟨206, some (st, en, contentLength), some (en - st + 1)⟩
      | _, _ => ⟨206, none, none⟩
    else ⟨200, none, none⟩
  | none => ⟨200, none, some contentLength⟩

/-! ## Background processing status writes (server.js lines 155-489)

The `setImmediate` background task of the upload endpoint.  `proc` is the
outcome of the inner video-processing try block (lines 218-389: processing,
audio uploads, the `complete: true` database write, HLS cloud upload and
audio cleanup); `cleanup` is the outcome of the local-cleanup block (lines
406-465).  Progress-callback writes emitted while `proc` is still running
precede every terminal write and are omitted. -/

/-- One `processingStatus` object as written by the upload endpoint's
background task. -/
structure ProcStatus where
  telegramUploading : Bool
  hlsProgress : Nat
  hlsStage : Option String
  currentQuality : Option String
  thumbnailGenerating : Bool
  complete : Bool
  errors : List String
  deriving DecidableEq, Repr

/-- The sequence of `processingStatus` writes performed by one background
run: the initial write (lines 158-166), the post-thumbnail write (lines
194-215), then either the success write `complete: true` (lines 347-355) or
the inner-catch write `complete: false` (lines 393-401), and finally — only
when the cleanup block throws — the outer-catch write `complete: true`
(lines 470-478). -/
def backgroundStatusWrites (proc cleanup : Except String Unit) : List ProcStatus :=
  let w1 : ProcStatus := ⟨false, 0, none, none, true, false, []⟩
  let w2 : ProcStatus := ⟨false, 0, none, none, false, false, []⟩
  match proc with
  | .ok _ =>
    let w3 : ProcStatus := ⟨false, 100, some "Processing complete", none, false, true, []⟩
    match cleanup with
    | .ok _ => [w1, w2, w3]
    | .error e =>
      [w1, w2, w3, ⟨false, 0, none, none, false, true,
        ["Background processing failed: " ++ e]⟩]
  | .error e =>
    let w3 : ProcStatus := ⟨false, 0, none, none, false, false,
      ["Video processing failed: " ++ e]⟩
    match cleanup with
    | .ok _ => [w1, w2, w3]
    | .error e2 =>
      [w1, w2, w3, ⟨false, 0, none, none, false, true,
        ["Background processing failed: " ++ e2]⟩]

/-- Whether an `Except` outcome is a success. -/
def exceptOk : Except String Unit → Bool
  | .ok _ => true
  | .error _ => false

/-! ## Audio-track playback resolution (server.js `/api/audio/:videoId/:trackIndex`,
lines 562-670) -/

/-- One element of `video.extractedAudioFiles` as read by the audio route. -/
structure AudioFileRec where
  trackIndex : Nat
  fileName : String
  telegramUploaded : Bool
  hlsUrl : Option String
  deriving DecidableEq, Repr

/-- The video-record fields read by the audio route. -/
structure VideoRec where
  extractedAudioFiles : List AudioFileRec
  hlsPlaylist : Option String
  deriving DecidableEq, Repr

/-- The possible responses of the audio route. -/
inductive AudioResponse
  | httpError (status : Nat) (msg : String)
  | cloudStream (trackIndex : Nat)
  | redirect (url : String)
  deriving DecidableEq, Repr

/-- Whether a response is a hard error (a 4xx/5xx JSON error). -/
def AudioResponse.isHardError : AudioResponse → Bool
  | .httpError _ _ => true
  | _ => false

/-- The decision sequence of `/api/audio/:videoId/:trackIndex` (server.js
lines 562-670): 404 when the video is missing; 404 when the requested track
index is not in `extractedAudioFiles` (lines 580-584); otherwise cloud
streaming when the track was uploaded and the cloud stream call succeeds
(`cloudOk`, lines 594-637, a throw falls through), then the track's
recorded `hlsUrl` (lines 640-643), then the local per-track playlist when
it exists on disk (lines 646-652), then the main manifest as last resort
(lines 655-658), and finally 404 (lines 661-664). -/
def resolveAudioTrack (videoId : String) (video : Option VideoRec)
    (trackIndex : Nat) (cloudOk localTrackPlaylistExists : Bool) : AudioResponse :=
  match video with
  | none => .httpError 404 "Video not found"
  | some v =>
    match v.extractedAudioFiles.find? (fun t => t.trackIndex == trackIndex) with
    | none => .httpError 404 "Audio track not found"
    | some track =>
      if track.telegramUploaded && cloudOk then .cloudStream trackIndex
      else
        match track.hlsUrl with
        | some u => .redirect u
        | none =>
          if localTrackPlaylistExists then
            .redirect ("/api/hls/" ++ videoId ++ "/audio/track_" ++
              toString trackIndex ++ "/playlist.m3u8")
          else
            match v.hlsPlaylist with
            | some _ => .redirect ("/api/hls/" ++ videoId ++ "/playlist.m3u8")
            | none => .httpError 404 "Audio stream not available"

/-! ## HLS file serving and the traversal guard (server.js
`/api/hls/:videoId/*`, lines 868-884)

Filesystem paths are modelled as lists of components; `path.join`
concatenates and normalizes (`.`/empty segments dropped, `..` popping the
previous component, as for absolute paths).  The server's guard compares
the *rendered strings* with `startsWith`, so strings are rendered to
`List Char` with a `/` before each component. -/

/-- Node `path.join` normalization over components of an absolute path. -/
def normalizeComponents (cs : List String) : List String :=
  cs.foldl (fun acc c =>
    if c = "" ∨ c = "." then acc
    else if c = ".." then acc.dropLast
    else acc ++ [c]) []

/-- The rendered string of an absolute path: `/a/b/c` as a character list. -/
def renderPath (cs : List String) : List Char :=
  (cs.map (fun c => '/' :: c.data)).flatten

/-- `hlsDir = path.join(__dirname, 'hls', videoId)` (server.js line 878);
"app" stands for `__dirname`. -/
def hlsDirComps (videoId : String) : List String :=
  normalizeComponents ["app", "hls", videoId]

/-- `filePath = path.join(hlsDir, requestPath)` (server.js line 879) with
the request path already split into components. -/
def hlsFilePath (videoId : String) (rel : List String) : List String :=
  normalizeComponents (["app", "hls", videoId] ++ rel)

/-- The traversal guard `filePath.startsWith(hlsDir)` (server.js line 882):
a plain string-prefix test on the rendered paths. -/
def hlsGuardPasses (videoId : String) (rel : List String) : Bool :=
  List.isPrefixOf (renderPath (hlsDirComps videoId))
    (renderPath (hlsFilePath videoId rel))

/-- Whether a normalized path lies inside the video's HLS directory:
its components extend the directory's components. -/
def insideHlsDir (videoId : String) (p : List String) : Prop :=
  hlsDirComps videoId <+: p

instance (videoId : String) (p : List String) : Decidable (insideHlsDir videoId p) :=
  inferInstanceAs (Decidable (hlsDirComps videoId <+: p))

/-- The guard's verdict: 403 Forbidden, or proceed to open the joined path
(the subsequent existence checks and redirects, lines 887-907, operate on
this same path). -/
inductive HLSResponse
  | forbidden
  | serve (path : List String)
  deriving DecidableEq, Repr

/-- Lines 878-884 of server.js: `if (!filePath.startsWith(hlsDir)) return
403` else continue with `filePath`. -/
def hlsRequestResponse (videoId : String) (rel : List String) : HLSResponse :=
  if hlsGuardPasses videoId rel then .serve (hlsFilePath videoId rel)
  else .forbidden

/-! ## Bulk HLS segment upload (telegramService.js `uploadHLSFiles`,
lines 460-582) -/

/-- `batchSize = 3` (telegramService.js line 510). -/
def hlsBatchSize : Nat := 3

/-- `batchDelay = 3000` ms between batches (telegramService.js line 511). -/
def hlsBatchDelay : Nat := 3000

/-- `retryDelay = 45000` ms on rate-limit signals (telegramService.js
line 512). -/
def hlsRateLimitDelay : Nat := 45000

/-- The safety ceiling on the candidate file count (telegramService.js
line 498). -/
def hlsFileCeiling : Nat := 100

/-- Per-file `maxRetries = 3` (telegramService.js line 520). -/
def hlsUploadMaxRetries : Nat := 3

/-- Outcome of one `bot.sendDocument` attempt for one HLS file: success, a
rate-limit signal (`429` / `Too Many Requests`), or another error. -/
inductive AttemptOutcome
  | success
  | rateLimited
  | failure (msg : String)
  deriving DecidableEq, Repr

/-- The per-file `while (retries < maxRetries)` loop (telegramService.js
lines 519-554): success returns; a rate-limit error sleeps
`hlsRateLimitDelay` and retries (giving up after the retry budget); any
other error returns failure immediately with no sleep.  Result: whether the
file was uploaded, and the sleeps performed. -/
def hlsSingleGo (f : Nat → AttemptOutcome) : Nat → Nat → Bool × List Nat
  | _, 0 => (false, [])
  | attempt, r + 1 =>
    match f attempt with
    | .success => (true, [])
    | .failure _ => (false, [])
    | .rateLimited =>
      let rest := hlsSingleGo f (attempt + 1) r
      (rest.1, hlsRateLimitDelay :: rest.2)

/-- One file's upload with its retry budget (telegramService.js lines
518-555). -/
def uploadHLSSingle (f : Nat → AttemptOutcome) : Bool × List Nat :=
  hlsSingleGo f 1 hlsUploadMaxRetries

/-- Trace of the batch loop: sizes of the batches processed, per-file
success flags in input order, per-file sleeps, inter-batch sleeps. -/
structure HLSRun where
  batchSizes : List Nat
  fileResults : List Bool
  fileSleeps : List Nat
  batchSleeps : List Nat
  deriving DecidableEq, Repr

/-- The batch loop of `uploadHLSFiles` (telegramService.js lines 514-565):
`for (i = 0; i < hlsFiles.length; i += batchSize)` with slices of size 3,
sleeping `hlsBatchDelay` after a batch exactly when more files remain. -/
def runHLSBatches : List (Nat → AttemptOutcome) → HLSRun
  | [] => ⟨[], [], [], []⟩
  | f :: rest2 =>
    ⟨(f :: rest2.take 2).length :: (runHLSBatches (rest2.drop 2)).batchSizes,
     ((f :: rest2.take 2).map uploadHLSSingle).map Prod.fst ++
       (runHLSBatches (rest2.drop 2)).fileResults,
     (((f :: rest2.take 2).map uploadHLSSingle).map Prod.snd).flatten ++
       (runHLSBatches (rest2.drop 2)).fileSleeps,
     (if (rest2.drop 2).isEmpty then [] else [hlsBatchDelay]) ++
       (runHLSBatches (rest2.drop 2)).batchSleeps⟩
  termination_by l => l.length
  decreasing_by all_goals (simp; omega)

/-- The result record of `uploadHLSFiles`. -/
structure HLSResult where
  uploaded : Bool
  reason : Option String
  totalFiles : Nat
  successfulUploads : Nat
  run : HLSRun
  deriving DecidableEq, Repr

/-- `uploadHLSFiles(hlsDir, videoId)` (telegramService.js lines 460-582):
no files found (line 493), the `> 100` ceiling skip without any upload
attempt (lines 498-506), else the batch loop with
`uploaded: successfulUploads > 0` (lines 570-576). -/
def uploadHLSFiles (files : List (Nat → AttemptOutcome)) : HLSResult :=
  if files.length = 0 then ⟨false, some "No HLS files found", 0, 0, ⟨[], [], [], []⟩⟩
  else if files.length > hlsFileCeiling then
    ⟨false, some "Too many HLS files - would exceed Telegram rate limits",
      files.length, 0, ⟨[], [], [], []⟩⟩
  else
    let run := runHLSBatches files
    ⟨0 < run.fileResults.count true, none, files.length,
      run.fileResults.count true, run⟩

end Unlimited

namespace Unlimited

/-! ## C5: single vs chunked path -/

/-- C5: a file whose size is at most the per-object limit is uploaded through
the single-object path, and the chunked path is taken exactly when the size
strictly exceeds the limit (telegramService.js lines 40-53 and 306-315). -/
theorem single_path_iff_within_limit (fileSize : Nat)
    (h : fileSize ≤ telegramMaxFileSize) :
    chooseUploadMethod fileSize telegramMaxFileSize = .single ∧
    ∀ s : Nat, chooseUploadMethod s telegramMaxFileSize = .chunked ↔
      telegramMaxFileSize < s := by
  constructor
  · simp [chooseUploadMethod, Nat.not_lt.mpr h]
  · intro s
    by_cases hs : telegramMaxFileSize < s <;>
      simp [chooseUploadMethod, hs]

/-- Witness for `single_path_iff_within_limit` at a 10 MiB file. -/
theorem single_path_iff_within_limit_witness :
    10 * 1024 * 1024 ≤ telegramMaxFileSize ∧
    chooseUploadMethod (10 * 1024 * 1024) telegramMaxFileSize = .single :=
  ⟨by decide, (single_path_iff_within_limit (10 * 1024 * 1024) (by decide)).1⟩

/-! ## C4: quality ladder bounded by the source height -/

/-- C4: for a source of known positive height `h`, the generated ladder is
exactly the candidate entries whose height does not exceed `h` (so no
produced quality exceeds the source resolution), and a 480p source yields
exactly the 480p and 360p entries (videoProcessor.js lines 471-485). -/
theorem quality_ladder_filtered_by_height (h : Nat) (hpos : 0 < h) :
    getQualityLevels (some h) = qualityLadder.filter (fun q => q.height ≤ h) ∧
    (∀ q ∈ getQualityLevels (some h), q.height ≤ h) ∧
    getQualityLevels (some 480) =
      [⟨"480p", 854, 480, "1400k", "128k"⟩, ⟨"360p", 640, 360, "800k", "96k"⟩] := by
  have hne : h ≠ 0 := Nat.pos_iff_ne_zero.mp hpos
  refine ⟨by simp [getQualityLevels, hne], ?_, by decide⟩
  intro q hq
  have hmem : q ∈ qualityLadder.filter (fun q => q.height ≤ h) := by
    simpa [getQualityLevels, hne] using hq
  simpa using (List.mem_filter.mp hmem).2

/-- Witness for `quality_ladder_filtered_by_height` at a 480p source. -/
theorem quality_ladder_filtered_by_height_witness :
    0 < 480 ∧
    ∀ q ∈ getQualityLevels (some 480), q.height ≤ 480 :=
  ⟨by decide, (quality_ladder_filtered_by_height 480 (by decide)).2.1⟩

/-! ## C9: audio extraction is a no-op for at most one track -/

/-- C9: with a missing, empty, or single-element audio track list,
`extractAudioTracks` returns the empty list and attempts no extraction at
all (audioExtractor.js lines 24-28). -/
theorem extract_noop_for_single_track
    (extract : Nat → AudioTrackMeta → Except String Nat)
    (audioTracks : Option (List AudioTrackMeta))
    (h : audioTracks = none ∨ ∃ l, audioTracks = some l ∧ l.length ≤ 1) :
    extractAudioTracks extract audioTracks = ([], []) := by
  rcases h with h | ⟨l, rfl, hl⟩
  · simp [h, extractAudioTracks]
  · simp [extractAudioTracks, hl]

/-! ## C1: chunked upload round-trip -/

/-- Concatenating the first `k` chunks produced by the split loop yields the
first `k * chunkSize` bytes of the file. -/
theorem flatten_split_first_chunks (file : List Nat) (cs : Nat) :
    ∀ k, ((List.range k).map (fun i =>
      (file.drop (i * cs)).take (min (i * cs + cs) file.length - i * cs))).flatten
      = file.take (k * cs) := by
  intro k
  induction k with
  | zero => simp
  | succ k ih =>
    rw [List.range_succ, List.map_append, List.flatten_append, ih]
    simp only [List.map_cons, List.map_nil, List.flatten_cons, List.flatten_nil,
      List.append_nil]
    rw [Nat.succ_mul, List.take_add]
    congr 1
    rw [List.take_eq_take]
    simp only [List.length_drop]
    omega

/-- `splitVideoFile` loses no bytes: concatenating all chunks in order
reproduces the file. -/
theorem splitVideoFile_flatten (file : List Nat) (cs : Nat) (hcs : 0 < cs) :
    (splitVideoFile file cs).flatten = file := by
  have h := flatten_split_first_chunks file cs ((file.length + cs - 1) / cs)
  have h1 : file.length + cs - 1 < (file.length + cs - 1) / cs * cs + cs :=
    Nat.lt_div_mul_add hcs
  have hle : file.length ≤ (file.length + cs - 1) / cs * cs := by omega
  simpa [splitVideoFile, List.take_of_length_le hle] using h

/-- C1: for a file larger than the per-object limit, the chunked path is
chosen, `splitVideoFile` cuts the file into sequential parts each of length
at most the chunk size, `uploadLargeVideoToChannel` numbers them with
1-based sequence numbers in ascending order, and `downloadChunkedVideo`
concatenating the parts in that order reproduces the original byte sequence
(telegramService.js lines 168-194, 220-244, 347-390). -/
theorem chunked_upload_roundtrip (file : List Nat) (objectLimit chunkSize : Nat)
    (hcs : 0 < chunkSize) (hbig : objectLimit < file.length) :
    chooseUploadMethod file.length objectLimit = .chunked ∧
    (∀ c ∈ splitVideoFile file chunkSize, c.length ≤ chunkSize) ∧
    (∀ i, i < (uploadLargeVideoToChannel file chunkSize).length →
      ((uploadLargeVideoToChannel file chunkSize).map ChunkRecord.part)[i]? =
        some (i + 1)) ∧
    downloadChunkedVideo (uploadLargeVideoToChannel file chunkSize) = file := by
  refine ⟨by simp [chooseUploadMethod, hbig], ?_, ?_, ?_⟩
  · intro c hc
    simp only [splitVideoFile, List.mem_map, List.mem_range] at hc
    obtain ⟨i, _, rfl⟩ := hc
    refine le_trans (List.length_take_le _ _) ?_
    omega
  · intro i hi
    have hi' : i < (splitVideoFile file chunkSize).length := by
      simpa [uploadLargeVideoToChannel] using hi
    simp [uploadLargeVideoToChannel, List.getElem?_map, List.getElem?_enum,
      List.getElem?_eq_getElem, hi']
  · have hcomp :
        ChunkRecord.data ∘ (fun p : Nat × List Nat => (⟨p.1 + 1, p.2⟩ : ChunkRecord)) =
          Prod.snd := rfl
    rw [downloadChunkedVideo, uploadLargeVideoToChannel, List.map_map, hcomp,
      List.enum_map_snd]
    exact splitVideoFile_flatten file chunkSize hcs

/-- Witness for `chunked_upload_roundtrip`: a 5-byte file, object limit 3,
chunk size 2. -/
theorem chunked_upload_roundtrip_witness :
    0 < 2 ∧ 3 < ([10, 11, 12, 13, 14] : List Nat).length ∧
    downloadChunkedVideo (uploadLargeVideoToChannel [10, 11, 12, 13, 14] 2) =
      [10, 11, 12, 13, 14] :=
  ⟨by decide, by decide,
    (chunked_upload_roundtrip [10, 11, 12, 13, 14] 3 2 (by decide) (by decide)).2.2.2⟩

/-! ## C7: retry ceiling and non-throwing failure -/

/-- The retry loop never makes more attempts than it is allowed. -/
theorem retryLoop_attempts_le (g : Nat → Except String α) (d : Nat) :
    ∀ remaining attempt, (retryLoop g d attempt remaining).attemptsMade ≤ remaining := by
  intro remaining
  induction remaining with
  | zero => intro attempt; simp [retryLoop]
  | succ r ih =>
    intro attempt
    simp only [retryLoop]
    cases hg : g attempt with
    | ok a => simp
    | error e =>
      by_cases hr : r = 0
      · simp [hr]
      · simp only [hr, if_false]
        exact Nat.succ_le_succ (ih (attempt + 1))

/-- C7: the primary upload is attempted at most `maxRetries = 3` times; when
all three attempts fail, exactly 3 attempts are made, the sleeps between
them are `retryDelay * 1` and `retryDelay * 2`, and `uploadVideo` does not
throw but returns a not-uploaded result carrying the last failure reason
(telegramService.js lines 280-292 and 85-88). -/
theorem upload_retry_ceiling_and_failure (f : Nat → Except String α)
    (e1 e2 e3 : String)
    (h1 : f 1 = .error e1) (h2 : f 2 = .error e2) (h3 : f 3 = .error e3) :
    (uploadWithRetry f retryDelay maxRetries).attemptsMade = 3 ∧
    (uploadWithRetry f retryDelay maxRetries).sleeps =
      [retryDelay * 1, retryDelay * 2] ∧
    uploadVideoOutcome f = .notUploaded e3 ∧
    ∀ g : Nat → Except String α,
      (uploadWithRetry g retryDelay maxRetries).attemptsMade ≤ maxRetries := by
  have s3 : retryLoop f retryDelay 3 1 = ⟨.error e3, 1, []⟩ := by
    rw [retryLoop, h3]
    simp
  have s2 : retryLoop f retryDelay 2 2 =
      ⟨.error e3, 2, [retryDelay * 2]⟩ := by
    rw [retryLoop, h2]
    simp [s3]
  have s1 : retryLoop f retryDelay 1 3 =
      ⟨.error e3, 3, [retryDelay * 1, retryDelay * 2]⟩ := by
    rw [retryLoop, h1]
    simp [s2]
  have hrun : uploadWithRetry f retryDelay maxRetries =
      ⟨.error e3, 3, [retryDelay * 1, retryDelay * 2]⟩ := by
    simpa [uploadWithRetry, maxRetries] using s1
  refine ⟨by rw [hrun], by rw [hrun], ?_, ?_⟩
  · simp [uploadVideoOutcome, hrun]
  · intro g
    exact retryLoop_attempts_le g retryDelay maxRetries 1

/-- Witness for `upload_retry_ceiling_and_failure` with an oracle that always
fails with reason "network". -/
theorem upload_retry_ceiling_and_failure_witness :
    (fun _ : Nat => (.error "network" : Except String Unit)) 1 = .error "network" ∧
    uploadVideoOutcome (fun _ : Nat => (.error "network" : Except String Unit)) =
      .notUploaded "network" :=
  ⟨rfl, (upload_retry_ceiling_and_failure
    (fun _ : Nat => (.error "network" : Except String Unit))
    "network" "network" "network" rfl rfl rfl).2.2.1⟩

/-! ## C6: HTTP range semantics of the stream endpoint -/

/-- C6: a `bytes=start-end` Range request against a range-capable stream of
known total length yields status 206 with `Content-Range: bytes
start-end/total` and `Content-Length = end - start + 1`; a request with no
Range header yields the full content length with status 200
(server.js lines 796-809). -/
theorem stream_range_semantics (r : List Char) (st : Nat) (en : Int) (len : Nat)
    (hst : rangeStart r = some st) (hen : rangeEndValue r len = some en) :
    streamRangeResponse (some r) true len =
      ⟨206, some (st, en, len), some (en - st + 1)⟩ ∧
    ∀ ar : Bool, streamRangeResponse none ar len = ⟨200, none, some len⟩ := by
  constructor
  · simp only [streamRangeResponse, if_true]
    rw [hst, hen]
  · intro ar
    rfl

/-- Witness for `stream_range_semantics`: `bytes=100-199` against a
1000-byte resource gives a 100-byte partial response with
`Content-Range: bytes 100-199/1000`. -/
theorem stream_range_semantics_witness :
    rangeStart "bytes=100-199".data = some 100 ∧
    rangeEndValue "bytes=100-199".data 1000 = some 199 ∧
    streamRangeResponse (some "bytes=100-199".data) true 1000 =
      ⟨206, some (100, 199, 1000), some 100⟩ := by
  refine ⟨by decide, by decide, ?_⟩
  have h := (stream_range_semantics "bytes=100-199".data 100 199 1000
    (by decide) (by decide)).1
  norm_num at h
  exact h

/-! ## C2: the terminal `complete` flag of background processing -/

/-- C2 counterexample: when the inner video-processing phase fails (and the
cleanup block then completes normally), the final `processingStatus` write
has `complete = false` — the inner catch (server.js lines 393-401) writes
`complete: false`, and no later write occurs — contradicting the claim that
the flag is set true at the end of the sequence regardless of partial
failure. -/
theorem background_failure_leaves_complete_false :
    ((backgroundStatusWrites (Except.error "boom") (Except.ok ())).getLast?.map
      ProcStatus.complete) = some false := by
  rfl

/-- C2 amended: the final status write has `complete = true` exactly when
the processing phase succeeded or the background task failed at the top
level (outer catch, lines 467-478); when the processing phase fails and
cleanup completes normally, the final write has `complete = false` with the
failure recorded in `errors` (inner catch, lines 390-402). -/
theorem background_complete_flag (proc cleanup : Except String Unit) :
    ((backgroundStatusWrites proc cleanup).getLast?.map ProcStatus.complete) =
      some (exceptOk proc || !(exceptOk cleanup)) ∧
    ∀ e, proc = Except.error e → cleanup = Except.ok () →
      (backgroundStatusWrites proc cleanup).getLast? =
        some ⟨false, 0, none, none, false, false,
          ["Video processing failed: " ++ e]⟩ := by
  rcases proc with e | a <;> rcases cleanup with e2 | a2 <;>
    simp [backgroundStatusWrites, exceptOk]

/-- Witness for `background_complete_flag`: processing fails with "x" and
cleanup succeeds; the final write is `complete: false` with the error
recorded. -/
theorem background_complete_flag_witness :
    (backgroundStatusWrites (Except.error "x") (Except.ok ())).getLast? =
      some ⟨false, 0, none, none, false, false,
        ["Video processing failed: " ++ "x"]⟩ :=
  (background_complete_flag (Except.error "x") (Except.ok ())).2 "x" rfl rfl

/-! ## C3: audio-track playback fallback -/

/-- C3 counterexample: for a video whose main manifest exists but whose
`extractedAudioFiles` does not contain the requested track index, the audio
route returns the hard error 404 "Audio track not found" (server.js lines
580-584) before any fallback is considered — contradicting the claim that
no hard error is returned for any track index while the main manifest
exists. -/
theorem audio_missing_track_hard_error :
    (VideoRec.mk [] (some "hls/playlist.m3u8")).hlsPlaylist.isSome = true ∧
    resolveAudioTrack "vid" (some (VideoRec.mk [] (some "hls/playlist.m3u8")))
      2 true false = .httpError 404 "Audio track not found" := by
  exact ⟨rfl, rfl⟩

/-- C3 amended: when the requested track index is present in
`extractedAudioFiles` and the main manifest exists, the audio route never
returns a hard error — every branch ends in a cloud stream or a redirect,
with the main manifest as last resort (server.js lines 586-658). -/
theorem audio_track_fallback_no_hard_error (videoId : String) (v : VideoRec)
    (trackIndex : Nat) (cloudOk localEx : Bool) (track : AudioFileRec)
    (hfind : v.extractedAudioFiles.find? (fun t => t.trackIndex == trackIndex) =
      some track)
    (hmain : v.hlsPlaylist.isSome = true) :
    (resolveAudioTrack videoId (some v) trackIndex cloudOk localEx).isHardError =
      false := by
  rcases hv : v.hlsPlaylist with _ | p
  · rw [hv] at hmain
    simp at hmain
  · simp only [resolveAudioTrack]
    rw [hfind]
    by_cases hc : track.telegramUploaded && cloudOk
    · simp [hc, AudioResponse.isHardError]
    · rcases hu : track.hlsUrl with _ | u
      · cases localEx <;> simp [hc, hu, hv, AudioResponse.isHardError]
      · simp [hc, hu, AudioResponse.isHardError]

/-- Witness for `audio_track_fallback_no_hard_error`: a track that was
never uploaded and has no HLS stream still resolves without a hard error
via the main-manifest fallback. -/
theorem audio_track_fallback_no_hard_error_witness :
    ((VideoRec.mk [⟨0, "t0.aac", false, none⟩] (some "p")).extractedAudioFiles.find?
      (fun t => t.trackIndex == 0) = some ⟨0, "t0.aac", false, none⟩) ∧
    (resolveAudioTrack "vid" (some (VideoRec.mk [⟨0, "t0.aac", false, none⟩]
      (some "p"))) 0 false false).isHardError = false :=
  ⟨by decide, audio_track_fallback_no_hard_error "vid"
    (VideoRec.mk [⟨0, "t0.aac", false, none⟩] (some "p")) 0 false false
    ⟨0, "t0.aac", false, none⟩ (by decide) (by decide)⟩

/-! ## C10: the HLS directory traversal guard -/

/-- C10 counterexample: for video id "abc", the request path
`../abcd/x.m3u8` normalizes to `/app/hls/abcd/x.m3u8`, which lies outside
`/app/hls/abc` — yet the guard's string-prefix test passes (the directory
string without a trailing separator is a prefix of the sibling path's
string), so the handler does not respond 403 and proceeds to open a file
outside the per-video HLS directory (server.js lines 878-884). -/
theorem hls_guard_prefix_bypass :
    ¬ insideHlsDir "abc" (hlsFilePath "abc" ["..", "abcd", "x.m3u8"]) ∧
    hlsRequestResponse "abc" ["..", "abcd", "x.m3u8"] =
      .serve ["app", "hls", "abcd", "x.m3u8"] := by
  exact ⟨by decide, by decide⟩

/-- Rendering distributes over path concatenation. -/
theorem renderPath_append (a b : List String) :
    renderPath (a ++ b) = renderPath a ++ renderPath b := by
  simp [renderPath]

/-- C10 amended: the handler responds 403 exactly when the rendered string
of the normalized join does not start with the rendered HLS directory
string; every path genuinely inside the directory passes the guard, but —
because the test is a plain string prefix without a trailing separator — so
does any sibling whose rendered path merely extends that string
(see `hls_guard_prefix_bypass`). -/
theorem hls_guard_startsWith_check (videoId : String) (rel : List String) :
    (hlsRequestResponse videoId rel = .forbidden ↔
      ¬ (renderPath (hlsDirComps videoId)).isPrefixOf
          (renderPath (hlsFilePath videoId rel)) = true) ∧
    (insideHlsDir videoId (hlsFilePath videoId rel) →
      hlsRequestResponse videoId rel ≠ .forbidden) := by
  constructor
  · unfold hlsRequestResponse hlsGuardPasses
    by_cases hg : List.isPrefixOf (renderPath (hlsDirComps videoId))
        (renderPath (hlsFilePath videoId rel)) = true
    · simp [hg]
    · simp [hg]
  · intro hin
    obtain ⟨t, ht⟩ := hin
    have hr : renderPath (hlsFilePath videoId rel) =
        renderPath (hlsDirComps videoId) ++ renderPath t := by
      rw [← renderPath_append, ht]
    have hpre : (renderPath (hlsDirComps videoId)).isPrefixOf
        (renderPath (hlsFilePath videoId rel)) = true := by
      rw [ List.isPrefixOf_iff_prefix, hr]
      exact List.prefix_append _ _
    simp [hlsRequestResponse, hlsGuardPasses, hpre]

/-- Witness for `hls_guard_startsWith_check`: a well-formed request inside
the directory is not rejected. -/
theorem hls_guard_startsWith_check_witness :
    insideHlsDir "abc" (hlsFilePath "abc" ["sub", "p.m3u8"]) ∧
    hlsRequestResponse "abc" ["sub", "p.m3u8"] ≠ .forbidden :=
  ⟨by decide, (hls_guard_startsWith_check "abc" ["sub", "p.m3u8"]).2 (by decide)⟩

/-! ## C8: bulk HLS upload batching, ceiling and rate-limit backoff -/

/-- Every sleep performed by the per-file retry loop is the 45-second
rate-limit backoff. -/
theorem hlsSingleGo_sleeps_all (f : Nat → AttemptOutcome) :
    ∀ r attempt s, s ∈ (hlsSingleGo f attempt r).2 → s = hlsRateLimitDelay := by
  intro r
  induction r with
  | zero =>
    intro attempt s hs
    simp [hlsSingleGo] at hs
  | succ r ih =>
    intro attempt s hs
    rw [hlsSingleGo] at hs
    cases hf : f attempt with
    | success => rw [hf] at hs; simp at hs
    | failure m => rw [hf] at hs; simp at hs
    | rateLimited =>
      rw [hf] at hs
      simp only [List.mem_cons] at hs
      rcases hs with rfl | hs
      · rfl
      · exact ih (attempt + 1) s hs

/-- When no attempt ever reports a rate-limit signal, the per-file retry
loop performs no sleep at all. -/
theorem hlsSingleGo_no_rate_limit (f : Nat → AttemptOutcome)
    (hf : ∀ k, f k ≠ .rateLimited) :
    ∀ r attempt, (hlsSingleGo f attempt r).2 = [] := by
  intro r
  induction r with
  | zero => intro attempt; rfl
  | succ r ih =>
    intro attempt
    rw [hlsSingleGo]
    cases hfa : f attempt with
    | success => rfl
    | failure m => rfl
    | rateLimited => exact absurd hfa (hf attempt)

/-- The batch sizes sum to the number of input files: every file is handled
in exactly one batch. -/
theorem runHLSBatches_sizes_sum (files : List (Nat → AttemptOutcome)) :
    (runHLSBatches files).batchSizes.sum = files.length := by
  induction files using runHLSBatches.induct with
  | case1 => simp [runHLSBatches]
  | case2 f rest2 ih =>
    rw [runHLSBatches]
    simp only [List.sum_cons, ih, List.length_cons, List.length_take,
      List.length_drop]
    omega

/-- Every batch is nonempty and holds at most `hlsBatchSize = 3` files. -/
theorem runHLSBatches_sizes_le (files : List (Nat → AttemptOutcome)) :
    ∀ b ∈ (runHLSBatches files).batchSizes, 0 < b ∧ b ≤ hlsBatchSize := by
  induction files using runHLSBatches.induct with
  | case1 =>
    intro b hb
    simp [runHLSBatches] at hb
  | case2 f rest2 ih =>
    intro b hb
    rw [runHLSBatches] at hb
    simp only [List.mem_cons] at hb
    rcases hb with rfl | hb
    · refine ⟨by simp, ?_⟩
      simp only [List.length_cons, hlsBatchSize]
      have := List.length_take_le 2 rest2
      omega
    · exact ih b hb

/-- The batch-size trace is empty only for an empty input. -/
theorem runHLSBatches_sizes_nil (files : List (Nat → AttemptOutcome)) :
    (runHLSBatches files).batchSizes = [] ↔ files = [] := by
  cases files with
  | nil => simp [runHLSBatches]
  | cons f rest2 =>
    rw [runHLSBatches]
    simp

/-- Every batch but the last is full (exactly 3 files). -/
theorem runHLSBatches_dropLast_full (files : List (Nat → AttemptOutcome)) :
    ∀ b ∈ (runHLSBatches files).batchSizes.dropLast, b = hlsBatchSize := by
  induction files using runHLSBatches.induct with
  | case1 =>
    intro b hb
    simp [runHLSBatches] at hb
  | case2 f rest2 ih =>
    intro b hb
    rw [runHLSBatches] at hb
    rcases hrest : rest2.drop 2 with _ | ⟨x, xs⟩
    · rw [hrest] at hb
      simp [runHLSBatches] at hb
    · rw [hrest] at hb
      have hne : (runHLSBatches (x :: xs)).batchSizes ≠ [] := by
        rw [Ne, runHLSBatches_sizes_nil]
        simp
      rw [List.dropLast_cons_of_ne_nil hne] at hb
      simp only [List.mem_cons] at hb
      rcases hb with rfl | hb
      · have h2 : 2 ≤ rest2.length := by
          by_contra hlt
          have : rest2.drop 2 = [] := by
            apply List.drop_eq_nil_of_le
            omega
          rw [hrest] at this
          exact absurd this (by simp)
        simp only [List.length_cons, hlsBatchSize]
        rw [List.length_take]
        omega
      · rw [← hrest] at hb
        exact ih b hb

/-- The inter-batch sleeps are exactly one 3-second delay between
consecutive batches. -/
theorem runHLSBatches_batchSleeps (files : List (Nat → AttemptOutcome)) :
    (runHLSBatches files).batchSleeps =
      List.replicate ((runHLSBatches files).batchSizes.length - 1) hlsBatchDelay := by
  induction files using runHLSBatches.induct with
  | case1 => simp [runHLSBatches]
  | case2 f rest2 ih =>
    rw [runHLSBatches]
    rcases hrest : rest2.drop 2 with _ | ⟨x, xs⟩
    · simp [runHLSBatches]
    · rw [hrest] at ih
      have hn : 1 ≤ (runHLSBatches (x :: xs)).batchSizes.length := by
        rw [runHLSBatches]
        simp
      simp only [List.isEmpty_cons, ih, List.length_cons]
      have hsz : (runHLSBatches (x :: xs)).batchSizes.length + 1 - 1 =
          ((runHLSBatches (x :: xs)).batchSizes.length - 1) + 1 := by
        omega
      rw [hsz, List.replicate_succ]
      simp

/-- Every per-file sleep across the whole batch run is the 45-second
rate-limit backoff. -/
theorem runHLSBatches_fileSleeps_all (files : List (Nat → AttemptOutcome)) :
    ∀ s ∈ (runHLSBatches files).fileSleeps, s = hlsRateLimitDelay := by
  induction files using runHLSBatches.induct with
  | case1 =>
    intro s hs
    simp [runHLSBatches] at hs
  | case2 f rest2 ih =>
    intro s hs
    rw [runHLSBatches] at hs
    simp only [List.map_map, List.mem_append, List.mem_flatten, List.mem_map,
      Function.comp] at hs
    rcases hs with ⟨l, ⟨⟨g, hg, rfl⟩, hsl⟩⟩ | hs
    · exact hlsSingleGo_sleeps_all g hlsUploadMaxRetries 1 s hsl
    · exact ih s hs

/-- When no file's attempts ever report a rate-limit signal, the whole
batch run performs no per-file sleep. -/
theorem runHLSBatches_no_rate_limit (files : List (Nat → AttemptOutcome))
    (h : ∀ g ∈ files, ∀ k, g k ≠ .rateLimited) :
    (runHLSBatches files).fileSleeps = [] := by
  induction files using runHLSBatches.induct with
  | case1 => simp [runHLSBatches]
  | case2 f rest2 ih =>
    rw [runHLSBatches]
    have hbatch : ∀ g ∈ f :: rest2.take 2, (uploadHLSSingle g).2 = [] := by
      intro g hg
      have hgmem : g ∈ f :: rest2 := by
        rcases List.mem_cons.mp hg with rfl | hg2
        · exact List.mem_cons_self _ _
        · exact List.mem_cons_of_mem _ (List.mem_of_mem_take hg2)
      exact hlsSingleGo_no_rate_limit g (h g hgmem) hlsUploadMaxRetries 1
    have hrest : ∀ g ∈ rest2.drop 2, ∀ k, g k ≠ AttemptOutcome.rateLimited := by
      intro g hg
      exact h g (List.mem_cons_of_mem _ (List.mem_of_mem_drop hg))
    have hflat : (((f :: rest2.take 2).map uploadHLSSingle).map Prod.snd).flatten = [] := by
      rw [List.flatten_eq_nil_iff]
      intro l hl
      simp only [List.map_map, List.mem_map] at hl
      obtain ⟨g, hg, rfl⟩ := hl
      exact hbatch g hg
    simp only [hflat, List.nil_append]
    exact ih hrest

/-- C8: when the candidate file count exceeds the ceiling of 100, the whole
bulk upload is skipped with a "too many files" reason and no upload attempt
or sleep at all; otherwise the files are processed in batches of 3 (all
batches full except possibly the last), with one 3-second delay between
consecutive batches, and the only other sleeps are 45-second backoffs
occurring exclusively on rate-limit signals
(telegramService.js lines 497-565). -/
theorem hls_bulk_upload_policy (files : List (Nat → AttemptOutcome)) :
    (files.length > hlsFileCeiling →
      uploadHLSFiles files =
        ⟨false, some "Too many HLS files - would exceed Telegram rate limits",
          files.length, 0, ⟨[], [], [], []⟩⟩) ∧
    (0 < files.length → files.length ≤ hlsFileCeiling →
      (runHLSBatches files).batchSizes.sum = files.length ∧
      (∀ b ∈ (runHLSBatches files).batchSizes, 0 < b ∧ b ≤ hlsBatchSize) ∧
      (∀ b ∈ (runHLSBatches files).batchSizes.dropLast, b = hlsBatchSize) ∧
      (runHLSBatches files).batchSleeps =
        List.replicate ((runHLSBatches files).batchSizes.length - 1)
          hlsBatchDelay ∧
      (∀ s ∈ (runHLSBatches files).fileSleeps, s = hlsRateLimitDelay) ∧
      ((∀ g ∈ files, ∀ k, g k ≠ AttemptOutcome.rateLimited) →
        (runHLSBatches files).fileSleeps = [])) := by
  constructor
  · intro hbig
    have hne : ¬ files.length = 0 := by
      intro h0
      rw [h0] at hbig
      exact absurd hbig (by simp [hlsFileCeiling])
    simp [uploadHLSFiles, hne, hbig]
  · intro _ _
    exact ⟨runHLSBatches_sizes_sum files, runHLSBatches_sizes_le files,
      runHLSBatches_dropLast_full files, runHLSBatches_batchSleeps files,
      runHLSBatches_fileSleeps_all files, runHLSBatches_no_rate_limit files⟩

/-- Witness for `hls_bulk_upload_policy`: four always-succeeding files form
two batches with a single inter-batch delay. -/
theorem hls_bulk_upload_policy_witness :
    0 < (List.replicate 4 (fun _ : Nat => AttemptOutcome.success)).length ∧
    (List.replicate 4 (fun _ : Nat => AttemptOutcome.success)).length ≤
      hlsFileCeiling ∧
    (runHLSBatches
        (List.replicate 4 (fun _ : Nat => AttemptOutcome.success))).batchSleeps =
      List.replicate
        ((runHLSBatches
          (List.replicate 4 (fun _ : Nat => AttemptOutcome.success))).batchSizes.length - 1)
        hlsBatchDelay :=
  ⟨by decide, by decide,
    ((hls_bulk_upload_policy
      (List.replicate 4 (fun _ : Nat => AttemptOutcome.success))).2
      (by decide) (by decide)).2.2.2.1⟩

/-- Witness for `extract_noop_for_single_track` on a one-track list with an
extraction oracle that would succeed if it were ever consulted. -/
theorem extract_noop_for_single_track_witness :
    (some [(⟨0, some "eng", none, 2, 48000⟩ : AudioTrackMeta)] =
        (none : Option (List AudioTrackMeta)) ∨
      ∃ l, some [(⟨0, some "eng", none, 2, 48000⟩ : AudioTrackMeta)] = some l ∧
        l.length ≤ 1) ∧
    extractAudioTracks (fun _ _ => .ok 7)
      (some [⟨0, some "eng", none, 2, 48000⟩]) = ([], []) := by
  refine ⟨Or.inr ⟨_, rfl, by decide⟩, ?_⟩
  exact extract_noop_for_single_track _ _ (Or.inr ⟨_, rfl, by decide⟩)

end Unlimited
